import Mathlib

/-!
Verification of the pattern-matching core of `salt/utils/stringutils.py`:
`expr_match`, `check_whitelist_blacklist` and `check_include_exclude`.

The Python functions rely on two library primitives, `re` (regular
expressions) and `fnmatch` (shell globbing).  We embed the fragment of
regular-expression syntax actually exercised by the matching code:
literal characters, escaped punctuation, `.`, character classes
`[...]` (with `^` negation and ranges), the postfix operators
`*`, `+`, `?`, and top-level alternation `|`.  Syntax outside this
fragment (grouping, repetition braces, named escapes, in-pattern
anchors) is rejected by the compiler (`reCompile` returns `none`),
which is how the embedding renders the `re.error` raised by CPython
on an invalid pattern; the concrete patterns appearing in the claims
and in the counterexamples fail or succeed to compile exactly as
they do under CPython.  Matching is by Brzozowski derivatives.  The
regex fallback of `expr_match` reproduces the source's TEXTUAL
wrapping `re.match(r'\A...\Z'.format(expr), line)`: the parsed
top-level alternatives are matched so that only the first carries
the `\A` (a no-op under `re.match`) and only the last carries the
`\Z`, as under CPython, where `\Aa|b\Z` is `(\Aa)|(b\Z)`.  Globbing is embedded the way CPython's
`fnmatch` implements it: the glob pattern is translated to a regular
expression (`globTranslate` mirrors `fnmatch.translate`, including the
treatment of an unmatched `[` as a literal and of `[!...]` negation)
and then matched against the whole string.  POSIX behaviour is
modelled: `os.path.normcase` is the identity, so matching is
case-sensitive.
-/

/-- Abstract syntax of the embedded regular-expression fragment.
`fail` matches nothing, `eps` matches only the empty string,
`cls neg items` is a character class given by ranges (a single
character `c` is the range `(c, c)`), `dot` is `.` (any character
except newline, CPython's default). -/
inductive Regex where
  | fail : Regex
  | eps : Regex
  | char : Char → Regex
  | cls : Bool → List (Char × Char) → Regex
  | dot : Regex
  | seq : Regex → Regex → Regex
  | alt : Regex → Regex → Regex
  | star : Regex → Regex
deriving Repr, DecidableEq

/-- Does the character `c` fall in the class described by `items`
(negated when `neg` is true)?  A range `(a, b)` with `b < a` matches
no character. -/
def clsMatch (neg : Bool) (items : List (Char × Char)) (c : Char) : Bool :=
  let inRanges := items.any (fun p => decide (p.1 ≤ c) && decide (c ≤ p.2))
  if neg then !inRanges else inRanges

/-- Does the regular expression accept the empty string? -/
def nullable : Regex → Bool
  | .fail => false
  | .eps => true
  | .char _ => false
  | .cls _ _ => false
  | .dot => false
  | .seq r1 r2 => nullable r1 && nullable r2
  | .alt r1 r2 => nullable r1 || nullable r2
  | .star _ => true

/-- Brzozowski derivative of a regular expression by a character. -/
def rderiv : Regex → Char → Regex
  | .fail, _ => .fail
  | .eps, _ => .fail
  | .char c, a => if a = c then .eps else .fail
  | .cls neg items, a => if clsMatch neg items a then .eps else .fail
  | .dot, a => if a = '\n' then .fail else .eps
  | .seq r1 r2, a =>
      if nullable r1 then .alt (.seq (rderiv r1 a) r2) (rderiv r2 a)
      else .seq (rderiv r1 a) r2
  | .alt r1 r2, a => .alt (rderiv r1 a) (rderiv r2 a)
  | .star r, a => .seq (rderiv r a) (.star r)

/-- Whole-list matching: does the regular expression accept exactly
this character list?  This is the semantics of a fully anchored
match. -/
def matchList (r : Regex) : List Char → Bool
  | [] => nullable r
  | c :: cs => matchList (rderiv r c) cs

/-- Does the regular expression accept some prefix of the character
list?  This is the semantics of CPython's `re.match` (anchored at the
start only). -/
def matchSomePrefix (r : Regex) : List Char → Bool
  | [] => nullable r
  | c :: cs => nullable r || matchSomePrefix (rderiv r c) cs

/-- Does the regular expression accept some substring of the
character list?  This is the semantics of CPython's `re.search`
(unanchored). -/
def searchList (r : Regex) : List Char → Bool
  | [] => nullable r
  | c :: cs => matchSomePrefix r (c :: cs) || searchList r cs

/-- `re.search(pattern-already-compiled, s)` on a Lean string. -/
def reSearch (r : Regex) (s : String) : Bool :=
  searchList r s.data

/-- `re.fullmatch`-style anchored matching on a Lean string; the
source reaches it by formatting the pattern between the anchors
`\A` and `\Z` and calling `re.match`. -/
def reFullMatch (r : Regex) (s : String) : Bool :=
  matchList r s.data

/-! ### The regular-expression compiler (`re.compile`)

`reCompile` returns `none` where CPython raises `re.error`, and also
on syntax outside the embedded fragment. -/

/-- Parse the items of a character class, after any `^` and any
leading literal `]` have been taken, up to the closing `]`.  Returns
the ranges and the remaining input, or `none` when the class is
unterminated, contains a backslash (outside the embedded fragment),
or has a reversed range (`re.error: bad character range`). -/
def reClsItems : List Char → Option (List (Char × Char) × List Char)
  | [] => none
  | ']' :: rest => some ([], rest)
  | '\\' :: _ => none
  | a :: '-' :: ']' :: rest => some ([(a, a), ('-', '-')], rest)
  | a :: '-' :: b :: rest =>
      if a ≤ b then (reClsItems rest).map (fun p => ((a, b) :: p.1, p.2))
      else none
  | a :: rest => (reClsItems rest).map (fun p => ((a, a) :: p.1, p.2))

/-- Parse a character class, the input starting just after `[`:
an optional `^` negation, then a `]` appearing first is a literal
member, then items up to the closing `]`. -/
def parseCls (l : List Char) : Option (Regex × List Char) :=
  let negSplit : Bool × List Char :=
    match l with
    | '^' :: t => (true, t)
    | _ => (false, l)
  match negSplit with
  | (neg, ']' :: t) =>
      (reClsItems t).map (fun p => (Regex.cls neg ((']', ']') :: p.1), p.2))
  | (neg, l1) =>
      (reClsItems l1).map (fun p => (Regex.cls neg p.1, p.2))

/-- In the embedded fragment a backslash escapes punctuation only;
alphanumeric escapes (`\d`, `\w`, backreferences, ...) are outside
the fragment. -/
def regexEscapable (c : Char) : Bool :=
  !(c.isAlpha || c.isDigit)

/-- Parse one atom of the regular expression.  A bare repetition
operator, an unbalanced `(` or `)`, an alternation bar, an anchor or
a trailing backslash is a compile failure, as under CPython (or lies
outside the embedded fragment). -/
def parseAtom (l : List Char) : Option (Regex × List Char) :=
  match l with
  | [] => none
  | '.' :: rest => some (Regex.dot, rest)
  | '[' :: rest => parseCls rest
  | '\\' :: c :: rest =>
      if regexEscapable c then some (Regex.char c, rest) else none
  | '\\' :: [] => none
  | c :: rest =>
      if c = '*' || c = '+' || c = '?' || c = '(' || c = ')' ||
         c = '|' || c = '^' || c = '$' then none
      else some (Regex.char c, rest)

/-- Apply an optional postfix repetition operator to a parsed atom. -/
def applyPostfix (r : Regex) (l : List Char) : Regex × List Char :=
  match l with
  | '*' :: rest => (Regex.star r, rest)
  | '+' :: rest => (Regex.seq r (Regex.star r), rest)
  | '?' :: rest => (Regex.alt r Regex.eps, rest)
  | _ => (r, l)

/-- Parse one alternative: a sequence of atoms up to the end of the
input or a top-level `|` (which is left in place for the caller).
Each step consumes at least one character, so fuel `length + 1`
always suffices; a doubled repetition operator (`a**`) fails because
the second operator is parsed as an atom (CPython: `re.error:
multiple repeat`). -/
def parseSeq (fuel : Nat) (acc : Regex) (l : List Char) :
    Option (Regex × List Char) :=
  match fuel with
  | 0 => none
  | f + 1 =>
    match l with
    | [] => some (acc, [])
    | '|' :: rest => some (acc, '|' :: rest)
    | _ =>
      match parseAtom l with
      | none => none
      | some (a, rest) =>
        let step := applyPostfix a rest
        parseSeq f (Regex.seq acc step.1) step.2

/-- Parse the list of top-level alternatives of a pattern (CPython's
alternation binds loosest).  An empty alternative, as in `a|` or
`|b`, is valid and matches the empty string.  Each recursion consumes
at least the separating bar, so fuel `length + 1` suffices. -/
def parseAlts (fuel : Nat) (l : List Char) : Option (List Regex) :=
  match fuel with
  | 0 => none
  | f + 1 =>
    match parseSeq (l.length + 1) Regex.eps l with
    | none => none
    | some (r, []) => some [r]
    | some (r, _ :: rest) =>
        (parseAlts f rest).map (fun alts => r :: alts)

/-- Fold the top-level alternatives into a single alternation. -/
def foldAlts : List Regex → Regex
  | [] => Regex.fail
  | [r] => r
  | r :: r2 :: rest => Regex.alt r (foldAlts (r2 :: rest))

/-- `re.compile` on a character list: `none` is CPython's `re.error`
(or syntax outside the embedded fragment). -/
def reCompileL (l : List Char) : Option Regex :=
  (parseAlts (l.length + 1) l).map foldAlts

/-- `re.compile`: `none` is CPython's `re.error` (or syntax outside
the embedded fragment). -/
def reCompile (s : String) : Option Regex :=
  reCompileL s.data

/-! ### Globbing (`fnmatch.fnmatch`)

CPython's `fnmatch.fnmatch(name, pat)` normalises case (the identity
on POSIX) and matches `name` against the regular expression produced
by `fnmatch.translate(pat)`.  `globTranslate` builds that regular
expression directly as a `Regex` value: `*` becomes "any sequence"
(dot-all, `fnmatch.translate` emits `(?s:...)`), `?` any single
character, `[...]` a class with `!` negation, a first `]` literal
and an unmatched `[` taken as a literal `[`.  Other characters are
literal (`fnmatch.translate` escapes them). -/

/-- A class matching every character (negated empty class); glob `*`
and `?` match any character, newline included. -/
def anyChar : Regex :=
  Regex.cls true []

/-- Scan for the `]` closing a glob character class, returning the
body and the rest, or `none` when the class is unterminated. -/
def findClose : List Char → Option (List Char × List Char)
  | [] => none
  | ']' :: rest => some ([], rest)
  | c :: rest => (findClose rest).map (fun p => (c :: p.1, p.2))

/-- Split a glob class body (input starting just after `[`): optional
`!` negation, then a first `]` is a literal member, then everything
up to the closing `]`.  Mirrors the index scan in
`fnmatch.translate`. -/
def splitCls (l : List Char) : Option (Bool × List Char × List Char) :=
  let negSplit : Bool × List Char :=
    match l with
    | '!' :: t => (true, t)
    | _ => (false, l)
  match negSplit with
  | (neg, ']' :: t) =>
      (findClose t).map (fun p => (neg, ']' :: p.1, p.2))
  | (neg, l1) =>
      (findClose l1).map (fun p => (neg, p.1, p.2))

/-- Ranges of a glob class body: `a-b` is a range, any other
character stands for itself (`fnmatch.translate` copies the body into
the regular expression unchanged). -/
def globItems : List Char → List (Char × Char)
  | [] => []
  | a :: '-' :: b :: rest => (a, b) :: globItems rest
  | a :: rest => (a, a) :: globItems rest

/-- `fnmatch.translate`, building the `Regex` value directly.  Each
step consumes at least one character of the pattern, so fuel
`length + 1` always suffices. -/
def globTranslate (fuel : Nat) (l : List Char) : Regex :=
  match fuel with
  | 0 => Regex.fail
  | f + 1 =>
    match l with
    | [] => Regex.eps
    | '*' :: rest => Regex.seq (Regex.star anyChar) (globTranslate f rest)
    | '?' :: rest => Regex.seq anyChar (globTranslate f rest)
    | '[' :: rest =>
        match splitCls rest with
        | some (neg, body, rest2) =>
            Regex.seq (Regex.cls neg (globItems body)) (globTranslate f rest2)
        | none => Regex.seq (Regex.char '[') (globTranslate f rest)
    | c :: rest => Regex.seq (Regex.char c) (globTranslate f rest)

/-- `fnmatch.fnmatch(name, pat)` on POSIX: translate the glob and
match the whole name against it. -/
def fnmatch (name pat : String) : Bool :=
  matchList (globTranslate (pat.length + 1) pat.data) name.data

/-! ### `expr_match` (spec name: `matches`) -/

/-- Semantics of `re.match` on the textually wrapped pattern
`\A expr \Z`, given the top-level alternatives of `expr`.  The
wrapping is textual, so the `\A` attaches to the first alternative
only (a no-op, since `re.match` already starts at position 0) and
the `\Z` to the last alternative only: with a single alternative the
pattern must match the whole line, while every alternative before
the last needs only to match some prefix of the line. -/
def wrappedAltsMatch : List Regex → List Char → Bool
  | [], _ => false
  | [r], line => matchList r line
  | r :: r2 :: rest, line =>
      matchSomePrefix r line || wrappedAltsMatch (r2 :: rest) line

/-- The regex-fallback stage of `expr_match`: the source formats the
pattern between the anchors `\A` and `\Z` and calls `re.match` inside
a `try`/`except re.error`, so a compile failure is caught and counts
as a non-match.  Because the wrapping is textual, a pattern with
top-level alternation is NOT anchored at both ends as a whole:
only its first and last alternatives carry an anchor. -/
def wrappedRegexFallback (line expr : String) : Bool :=
  match parseAlts (expr.data.length + 1) expr.data with
  | some alts => wrappedAltsMatch alts line.data
  | none => false

/-- `expr_match(line, expr)`: exact equality, then glob, then the
wrapped regex fallback, short-circuiting on the first success. -/
def expr_match (line expr : String) : Bool :=
  if line = expr then true
  else if fnmatch line expr then true
  else wrappedRegexFallback line expr

/-! ### `check_whitelist_blacklist`

The whitelist and blacklist arguments are dynamically typed in the
source: `None`, a list of pattern strings, or a malformed value.
`pyscalar` stands for a truthy, non-iterable, non-string scalar (the
spec's "non-iterable sentinel", e.g. an integer): it lacks
`__iter__`, so the source coerces it to a one-element list, and
`fnmatch` then raises `TypeError` on the non-string element, which
the source catches and logs. -/
inductive PyArg where
  | pynone : PyArg
  | pylist : List String → PyArg
  | pyscalar : PyArg
deriving Repr, DecidableEq

/-- `check_whitelist_blacklist(value, whitelist, blacklist)`.
Blacklist phase: skipped when `None`; a list denies when any pattern
matches; a scalar is coerced to a singleton whose evaluation raises
`TypeError`, caught and logged, so it denies nothing.  Whitelist
phase: a falsy whitelist (`None` or the empty list) admits by
default; a non-empty list admits exactly when a pattern matches; a
scalar raises `TypeError`, caught and logged, and the call falls
through to `return False`. -/
def check_whitelist_blacklist (value : String) (whitelist blacklist : PyArg) : Bool :=
  let blacklistDenies : Bool :=
    match blacklist with
    | .pynone => false
    | .pylist l => l.any (fun expr => expr_match value expr)
    | .pyscalar => false
  if blacklistDenies then false
  else
    match whitelist with
    | .pynone => true
    | .pylist l =>
        if l = [] then true
        else l.any (fun expr => expr_match value expr)
    | .pyscalar => false

/-! ### `check_include_exclude`

An absent (`None`) or empty pattern is falsy and imposes no
constraint.  The pattern match is two-mode: an `E@` prefix selects an
unanchored `re.search` of the remainder, otherwise the pattern is a
glob matched against the whole string.  The `re.search` call is NOT
guarded by a `try`, so a compile failure of the remainder propagates
to the caller: the embedding returns `Except.error ()` there. -/

/-- Python truthiness of an optional string. -/
def optTruthy : Option String → Bool
  | none => false
  | some s => !(s = "")

/-- The two-mode pattern test shared by the include and exclude
branches of `check_include_exclude`: `re.match('E@', pat)` is a
prefix test, and on the `E@` branch `re.search(pat[2:], path_str)`
raises `re.error` (here: `Except.error ()`) when the remainder does
not compile. -/
def pathPatternMatch (path_str pat : String) : Except Unit Bool :=
  match pat.data with
  | 'E' :: '@' :: rest =>
      match reCompileL rest with
      | some r => .ok (searchList r path_str.data)
      | none => .error ()
  | _ => .ok (fnmatch path_str pat)

/-- `retchk_include`: true exactly when the include pattern matches. -/
def retchk_include (path_str pat : String) : Except Unit Bool :=
  pathPatternMatch path_str pat

/-- `retchk_exclude`: false exactly when the exclude pattern
matches. -/
def retchk_exclude (path_str pat : String) : Except Unit Bool :=
  (pathPatternMatch path_str pat).map (fun b => !b)

/-- `check_include_exclude(path_str, include_pat, exclude_pat)`: the
include test runs first (when its pattern is truthy), then the
exclude test, then the four-way combination from the source; an
uncaught `re.error` from either test propagates in that order. -/
def check_include_exclude (path_str : String)
    (include_pat exclude_pat : Option String) : Except Unit Bool :=
  let incStage : Except Unit (Option Bool) :=
    if optTruthy include_pat then
      (retchk_include path_str (include_pat.getD "")).map some
    else .ok none
  match incStage with
  | .error e => .error e
  | .ok incOpt =>
    let excStage : Except Unit (Option Bool) :=
      if optTruthy exclude_pat then
        (retchk_exclude path_str (exclude_pat.getD "")).map some
      else .ok none
    match excStage with
    | .error e => .error e
    | .ok excOpt =>
      match incOpt, excOpt with
      | some ri, none => .ok ri
      | none, some rx => .ok rx
      | some ri, some rx => .ok (ri && rx)
      | none, none => .ok true

/-- Results of `check_include_exclude` can be compared by `decide`. -/
instance : DecidableEq (Except Unit Bool) := fun a b =>
  match a, b with
  | .error (), .error () => isTrue rfl
  | .ok x, .ok y =>
      if h : x = y then isTrue (by rw [h])
      else isFalse (fun hc => h (Except.ok.inj hc))
  | .error (), .ok _ => isFalse (fun hc => Except.noConfusion hc)
  | .ok _, .error () => isFalse (fun hc => Except.noConfusion hc)

/-! ### Helper lemmas -/

/-- The empty regular expression matches a substring of every
string (the empty substring). -/
theorem searchList_eps (l : List Char) : searchList Regex.eps l = true := by
  cases l with
  | nil => rfl
  | cons c cs => simp [searchList, matchSomePrefix, nullable]

/-- A pattern on which equality, globbing and the caught regex
fallback all fail does not match. -/
theorem expr_match_eq_false {line expr : String} (hne : line ≠ expr)
    (hg : fnmatch line expr = false) (hc : reCompile expr = none) :
    expr_match line expr = false := by
  have halts : parseAlts (expr.data.length + 1) expr.data = none := by
    unfold reCompile reCompileL at hc
    exact Option.map_eq_none'.mp hc
  unfold expr_match wrappedRegexFallback
  rw [if_neg hne, if_neg (by simp [hg]), halts]

/-- A non-empty optional string is truthy. -/
theorem optTruthy_some {s : String} (h : s ≠ "") : optTruthy (some s) = true := by
  simp [optTruthy, h]

/-- A string whose character list is a cons cell is not empty. -/
theorem String.ne_empty_of_data_cons {s : String} {c : Char} {l : List Char}
    (h : s.data = c :: l) : s ≠ "" := by
  intro he
  rw [he] at h
  exact List.noConfusion h

/-- On an `E@`-prefixed pattern the two-mode matcher strips the
marker, compiles the remainder and runs an unanchored substring
search; a compile failure is an uncaught error. -/
theorem pathPatternMatch_eAt {path pat : String} {rest : List Char}
    (h : pat.data = 'E' :: '@' :: rest) :
    pathPatternMatch path pat =
      (match reCompileL rest with
       | some r => Except.ok (searchList r path.data)
       | none => Except.error ()) := by
  unfold pathPatternMatch
  split
  · next rest2 heq =>
      have h2 : 'E' :: '@' :: rest = 'E' :: '@' :: rest2 := h.symm.trans heq
      injection h2 with _ h3
      injection h3 with _ h4
      rw [h4]
  · next hne => exact absurd h (hne rest)

/-- On a pattern not starting with the `E@` marker the two-mode
matcher is exactly a whole-string glob match. -/
theorem pathPatternMatch_glob {path pat : String}
    (h : pat.data.take 2 ≠ ['E', '@']) :
    pathPatternMatch path pat = Except.ok (fnmatch path pat) := by
  unfold pathPatternMatch
  split
  · next rest heq => exact absurd (by rw [heq]; rfl) h
  · rfl

/-! ### Claims -/

/-- C1: Blacklist takes precedence over whitelist: whatever the
whitelist argument is, if the value matches at least one pattern of
the supplied blacklist via `expr_match`, then
`check_whitelist_blacklist` returns `false`. -/
theorem C1_blacklist_precedence (value : String) (wl : PyArg)
    (bl : List String) (p : String) (hp : p ∈ bl)
    (hm : expr_match value p = true) :
    check_whitelist_blacklist value wl (PyArg.pylist bl) = false := by
  unfold check_whitelist_blacklist
  have hden : bl.any (fun expr => expr_match value expr) = true :=
    List.any_eq_true.mpr ⟨p, hp, hm⟩
  simp only [hden, if_true]

/-- C1 witness: `"web1"` matches the whitelist pattern `"web1"` and
the blacklist pattern `"web*"`; the blacklist wins. -/
theorem C1_blacklist_precedence_witness :
    check_whitelist_blacklist "web1" (PyArg.pylist ["web1"])
      (PyArg.pylist ["web*"]) = false :=
  C1_blacklist_precedence "web1" (PyArg.pylist ["web1"]) ["web*"] "web*"
    (by decide) (by decide)

/-- C2: Whitelist semantics with default admit, assuming no
blacklist pattern matches the value: an absent or empty whitelist
admits (in particular `check_whitelist_blacklist value None None`
is `true`), and a non-empty whitelist admits exactly when some of
its patterns matches the value. -/
theorem C2_whitelist_semantics (value : String) (bl : List String)
    (hbl : ∀ p ∈ bl, expr_match value p = false) :
    check_whitelist_blacklist value PyArg.pynone (PyArg.pylist bl) = true ∧
    check_whitelist_blacklist value (PyArg.pylist []) (PyArg.pylist bl) = true ∧
    check_whitelist_blacklist value PyArg.pynone PyArg.pynone = true ∧
    ∀ wl : List String, wl ≠ [] →
      (check_whitelist_blacklist value (PyArg.pylist wl) (PyArg.pylist bl) = true ↔
        ∃ p ∈ wl, expr_match value p = true) := by
  have hden : bl.any (fun expr => expr_match value expr) = false := by
    rw [List.any_eq_false]
    intro p hp
    simp [hbl p hp]
  refine ⟨?_, ?_, ?_, ?_⟩
  · unfold check_whitelist_blacklist
    simp only [hden]
    rfl
  · unfold check_whitelist_blacklist
    simp only [hden, if_false]
    rfl
  · rfl
  · intro wl hwl
    unfold check_whitelist_blacklist
    simp only [hden, if_false, if_neg hwl]
    exact List.any_eq_true

/-- C2 witness: empty blacklist does not deny `"v"`, and the
non-empty whitelist `["v*"]` admits it. -/
theorem C2_whitelist_semantics_witness :
    check_whitelist_blacklist "v" (PyArg.pylist ["v*"])
      (PyArg.pylist ["zz"]) = true :=
  ((C2_whitelist_semantics "v" ["zz"] (by decide)).2.2.2 ["v*"]
    (by decide)).mpr ⟨"v*", by decide⟩

/-- C3: Combination policy of `check_include_exclude`: `true` when
neither pattern is supplied; the include-match result when only an
include pattern is supplied; the negated exclude-match result when
only an exclude pattern is supplied; include-matches AND NOT
exclude-matches when both are supplied ("supplied" being Python
truthiness: present and non-empty, the reading the spec itself fixes
by treating an empty pattern as absent). -/
theorem C3_include_exclude_policy :
    (∀ x : String, check_include_exclude x none none = Except.ok true) ∧
    (∀ x ip : String, ip ≠ "" →
       check_include_exclude x (some ip) none = retchk_include x ip) ∧
    (∀ x ep : String, ep ≠ "" →
       check_include_exclude x none (some ep) =
         (pathPatternMatch x ep).map (fun b => !b)) ∧
    (∀ (x ip ep : String) (i e : Bool), ip ≠ "" → ep ≠ "" →
       pathPatternMatch x ip = Except.ok i →
       pathPatternMatch x ep = Except.ok e →
       check_include_exclude x (some ip) (some ep) =
         Except.ok (i && !e)) := by
  refine ⟨fun x => rfl, ?_, ?_, ?_⟩
  · intro x ip hip
    cases hpm : pathPatternMatch x ip with
    | error e =>
        simp [check_include_exclude, optTruthy, hip, retchk_include, hpm,
          Except.map]
    | ok b =>
        simp [check_include_exclude, optTruthy, hip, retchk_include, hpm,
          Except.map]
  · intro x ep hep
    cases hpm : pathPatternMatch x ep with
    | error e =>
        simp [check_include_exclude, optTruthy, hep, retchk_exclude, hpm,
          Except.map]
    | ok b =>
        simp [check_include_exclude, optTruthy, hep, retchk_exclude, hpm,
          Except.map]
  · intro x ip ep i e hip hep hi hhe
    simp [check_include_exclude, optTruthy, hip, hep,
      retchk_include, retchk_exclude, hi, hhe, Except.map]

/-- C3 witness: include `"a*"` matches `"ab"` and exclude `"zz"`
does not, so the candidate is admitted. -/
theorem C3_include_exclude_policy_witness :
    check_include_exclude "ab" (some "a*") (some "zz") = Except.ok true := by
  have h := C3_include_exclude_policy.2.2.2 "ab" "a*" "zz" true false
    (by decide) (by decide) (by decide) (by decide)
  rw [h]
  rfl

/-- C4: Two-mode matching in `check_include_exclude`: an
`E@`-prefixed pattern has its remainder applied as a regular
expression by unanchored substring search, while a pattern without
the marker is a whole-string glob match with no regex fallback; in
particular `"E@chroot"` admits `"/etc/debian_chroot"`. -/
theorem C4_two_mode_matching :
    (∀ (path pat : String) (rest : List Char),
       pat.data = 'E' :: '@' :: rest →
       pathPatternMatch path pat =
         (match reCompileL rest with
          | some r => Except.ok (searchList r path.data)
          | none => Except.error ())) ∧
    (∀ path pat : String, pat.data.take 2 ≠ ['E', '@'] →
       pathPatternMatch path pat = Except.ok (fnmatch path pat)) ∧
    check_include_exclude "/etc/debian_chroot" (some "E@chroot") none =
      Except.ok true := by
  refine ⟨?_, ?_, by decide⟩
  · intro path pat rest h
    exact pathPatternMatch_eAt h
  · intro path pat h
    exact pathPatternMatch_glob h

/-- C4 witness: the glob mode applies to a marker-less pattern. -/
theorem C4_two_mode_matching_witness :
    pathPatternMatch "name1" "name*" = Except.ok (fnmatch "name1" "name*") :=
  C4_two_mode_matching.2.1 "name1" "name*" (by decide)

/-- C5 counterexample: for the pattern `"a|b"` and the candidate
`"ax"`, equality and globbing both fail, and a regular expression
anchored at both the start and the end of the candidate rejects
(the compiled `"a|b"` as a whole-string match of `"ax"` is false),
yet `expr_match` returns `true`: the source wraps the pattern only
textually between `\A` and `\Z`, so the anchors attach to the first
and last alternatives and the branch `\Aa` matches at the start of
`"ax"`. -/
theorem C5_anchored_regex_counterexample :
    expr_match "ax" "a|b" = true ∧
    ("ax" : String) ≠ "a|b" ∧
    fnmatch "ax" "a|b" = false ∧
    (match reCompile "a|b" with
     | some r => reFullMatch r "ax"
     | none => false) = false := by
  refine ⟨by decide, by decide, by decide, by decide⟩

/-- C5 (amended): when neither exact equality nor shell-glob
matching succeeds, the pattern is applied via `re.match` with the
anchors `\A` and `\Z` concatenated textually around it.  For a
pattern with a single top-level alternative this is a whole-string
anchored match, so `"[a-z]+[0-9]+"` matches `"abc123"` and rejects
`"xabc123y"`; but in a pattern with top-level alternation the
anchors attach only to the first and last alternatives, so
`matches("ax", "a|b")` is `true`. -/
theorem C5_anchored_regex_fallback_amended :
    (∀ line expr : String, line ≠ expr → fnmatch line expr = false →
       expr_match line expr =
         (match parseAlts (expr.data.length + 1) expr.data with
          | some alts => wrappedAltsMatch alts line.data
          | none => false)) ∧
    (∀ (line expr : String) (r : Regex), line ≠ expr →
       fnmatch line expr = false →
       parseAlts (expr.data.length + 1) expr.data = some [r] →
       expr_match line expr = reFullMatch r line) ∧
    expr_match "abc123" "[a-z]+[0-9]+" = true ∧
    expr_match "xabc123y" "[a-z]+[0-9]+" = false ∧
    expr_match "ax" "a|b" = true := by
  refine ⟨?_, ?_, by decide, by decide, by decide⟩
  · intro line expr hne hg
    unfold expr_match wrappedRegexFallback
    rw [if_neg hne, if_neg (by simp [hg])]
  · intro line expr r hne hg hp
    unfold expr_match wrappedRegexFallback
    rw [if_neg hne, if_neg (by simp [hg]), hp]
    rfl

/-- C5 witness: `"a."` has a single top-level alternative, so on
`"ab"` (where equality and globbing fail) the fallback is the
whole-string anchored match of the compiled pattern. -/
theorem C5_anchored_regex_fallback_amended_witness :
    expr_match "ab" "a." =
      reFullMatch
        (Regex.seq (Regex.seq Regex.eps (Regex.char 'a')) Regex.dot) "ab" :=
  C5_anchored_regex_fallback_amended.2.1 "ab" "a."
    (Regex.seq (Regex.seq Regex.eps (Regex.char 'a')) Regex.dot)
    (by decide) (by decide) (by decide)

/-- C6: A pattern whose regex-fallback stage fails to compile is a
silent non-match: when the earlier equality and glob stages also
fail, `expr_match` returns `false` rather than raising, and a
whitelist or blacklist evaluation containing such a pattern gives
the same decision as the evaluation over the remaining patterns. -/
theorem C6_invalid_regex_nonmatch :
    (∀ line expr : String, reCompile expr = none → line ≠ expr →
       fnmatch line expr = false → expr_match line expr = false) ∧
    (∀ (value : String) (wl : PyArg) (pre post : List String) (bad : String),
       reCompile bad = none → value ≠ bad → fnmatch value bad = false →
       check_whitelist_blacklist value wl (PyArg.pylist (pre ++ bad :: post)) =
         check_whitelist_blacklist value wl (PyArg.pylist (pre ++ post))) ∧
    (∀ (value : String) (bl : PyArg) (pre post : List String) (bad : String),
       reCompile bad = none → value ≠ bad → fnmatch value bad = false →
       pre ++ post ≠ [] →
       check_whitelist_blacklist value (PyArg.pylist (pre ++ bad :: post)) bl =
         check_whitelist_blacklist value (PyArg.pylist (pre ++ post)) bl) := by
  refine ⟨?_, ?_, ?_⟩
  · intro line expr hc hne hg
    exact expr_match_eq_false hne hg hc
  · intro value wl pre post bad hc hne hg
    have hb : expr_match value bad = false := expr_match_eq_false hne hg hc
    unfold check_whitelist_blacklist
    simp only [List.any_append, List.any_cons, hb, Bool.false_or]
  · intro value bl pre post bad hc hne hg hnil
    have hb : expr_match value bad = false := expr_match_eq_false hne hg hc
    have h1 : pre ++ bad :: post ≠ [] := by simp
    simp only [check_whitelist_blacklist]
    refine if_congr Iff.rfl rfl ?_
    rw [if_neg h1, if_neg hnil]
    simp only [List.any_append, List.any_cons, hb, Bool.false_or]

/-- C6 witness: the pattern `"["` does not compile as a regex; it is
a silent non-match for `"x"` and removing it from a blacklist does
not change the decision. -/
theorem C6_invalid_regex_nonmatch_witness :
    expr_match "x" "[" = false ∧
    check_whitelist_blacklist "x" PyArg.pynone
        (PyArg.pylist (["a"] ++ "[" :: ["b"])) =
      check_whitelist_blacklist "x" PyArg.pynone
        (PyArg.pylist (["a"] ++ ["b"])) :=
  ⟨C6_invalid_regex_nonmatch.1 "x" "[" (by decide) (by decide) (by decide),
   C6_invalid_regex_nonmatch.2.1 "x" PyArg.pynone ["a"] ["b"] "["
     (by decide) (by decide) (by decide)⟩

/-- C7 counterexample: an `E@`-prefixed include pattern whose
remainder `"("` does not compile makes `check_include_exclude`
propagate the regex-compilation error to the caller instead of
returning a boolean, contradicting the claim that no exception
escapes the normal matching paths. -/
theorem C7_no_exceptions_counterexample :
    check_include_exclude "x" (some "E@(") none = Except.error () := by
  decide

/-- C7 (amended): `expr_match` and `check_whitelist_blacklist` are
total boolean functions (their internal regex-compilation failures
are caught), and `check_include_exclude` returns a boolean whenever
every supplied `E@` pattern has a compilable remainder; but when a
supplied `E@` include pattern's remainder fails to compile the error
propagates to the caller. -/
theorem C7_no_exceptions_amended :
    (∀ (path : String) (ip ep : Option String),
       (∀ (s : String) (rest : List Char), ip = some s →
          s.data = 'E' :: '@' :: rest → (reCompileL rest).isSome = true) →
       (∀ (s : String) (rest : List Char), ep = some s →
          s.data = 'E' :: '@' :: rest → (reCompileL rest).isSome = true) →
       ∃ b : Bool, check_include_exclude path ip ep = Except.ok b) ∧
    (∀ (path s : String) (rest : List Char) (ep : Option String),
       s.data = 'E' :: '@' :: rest → reCompileL rest = none →
       check_include_exclude path (some s) ep = Except.error ()) := by
  constructor
  · intro path ip ep hip hep
    have hstage : ∀ (pat : String),
        (∀ rest : List Char, pat.data = 'E' :: '@' :: rest →
          (reCompileL rest).isSome = true) →
        ∃ b : Bool, pathPatternMatch path pat = Except.ok b := by
      intro pat hp
      unfold pathPatternMatch
      split
      · next rest heq =>
          cases hcr : reCompileL rest with
          | some r => exact ⟨_, rfl⟩
          | none =>
              have hsome := hp rest heq
              rw [hcr] at hsome
              exact absurd hsome (by decide)
      · exact ⟨_, rfl⟩
    have hinc : ∃ io : Option Bool,
        (if optTruthy ip then (retchk_include path (ip.getD "")).map some
         else Except.ok none) = Except.ok io := by
      cases ip with
      | none => exact ⟨none, rfl⟩
      | some s =>
          by_cases hs : s = ""
          · subst hs; exact ⟨none, rfl⟩
          · obtain ⟨b, hb⟩ := hstage s (fun rest hr => hip s rest rfl hr)
            refine ⟨some b, ?_⟩
            rw [optTruthy_some hs]
            simp [retchk_include, hb, Except.map]
    have hexc : ∃ eo : Option Bool,
        (if optTruthy ep then (retchk_exclude path (ep.getD "")).map some
         else Except.ok none) = Except.ok eo := by
      cases ep with
      | none => exact ⟨none, rfl⟩
      | some s =>
          by_cases hs : s = ""
          · subst hs; exact ⟨none, rfl⟩
          · obtain ⟨b, hb⟩ := hstage s (fun rest hr => hep s rest rfl hr)
            refine ⟨some (!b), ?_⟩
            rw [optTruthy_some hs]
            simp [retchk_exclude, hb, Except.map]
    obtain ⟨io, hio⟩ := hinc
    obtain ⟨eo, heo⟩ := hexc
    unfold check_include_exclude
    rw [hio, heo]
    cases io <;> cases eo <;> exact ⟨_, rfl⟩
  · intro path s rest ep hd hcr
    have hs : s ≠ "" := String.ne_empty_of_data_cons hd
    have hpm : pathPatternMatch path s = Except.error () := by
      rw [pathPatternMatch_eAt hd, hcr]
    unfold check_include_exclude
    rw [optTruthy_some hs]
    simp [retchk_include, hpm, Except.map]

/-- C7 witness: with a compilable `E@` include remainder and a glob
exclude, the call returns a boolean. -/
theorem C7_no_exceptions_amended_witness :
    ∃ b : Bool,
      check_include_exclude "abc" (some "E@b") (some "a*") = Except.ok b :=
  C7_no_exceptions_amended.1 "abc" (some "E@b") (some "a*")
    (fun s rest hs hr => by
      cases hs
      have hd : ('E' :: '@' :: ['b'] : List Char) = 'E' :: '@' :: rest := hr
      injection hd with _ h2
      injection h2 with _ h3
      rw [← h3]
      decide)
    (fun s rest hs hr => by
      cases hs
      have h1 : ('a' :: '*' :: [] : List Char) = 'E' :: '@' :: rest := hr
      injection h1 with h2 _
      exact absurd h2 (by decide))

/-- C8 counterexample: with no blacklist and a malformed (truthy,
non-iterable) whitelist, `check_whitelist_blacklist` returns
`false`, not the claimed default-admit `true`: the caught
`TypeError` makes the call fall through to `return False` rather
than treating the whitelist as absent. -/
theorem C8_malformed_counterexample :
    check_whitelist_blacklist "x" PyArg.pyscalar PyArg.pynone = false := rfl

/-- C8 (amended): a malformed (truthy, non-iterable) blacklist is
logged and imposes no restriction — the call behaves exactly as with
no blacklist — while a malformed (truthy, non-iterable) whitelist is
logged and the call returns `false` (deny), whatever the blacklist
outcome. -/
theorem C8_malformed_handling :
    (∀ (value : String) (wl : PyArg),
       check_whitelist_blacklist value wl PyArg.pyscalar =
         check_whitelist_blacklist value wl PyArg.pynone) ∧
    (∀ (value : String) (bl : PyArg),
       check_whitelist_blacklist value PyArg.pyscalar bl = false) := by
  refine ⟨fun value wl => rfl, ?_⟩
  intro value bl
  unfold check_whitelist_blacklist
  cases bl with
  | pynone => rfl
  | pylist l => exact ite_self false
  | pyscalar => rfl

/-- C9: An empty-string include or exclude pattern is falsy and
imposes no constraint, exactly as an absent pattern; in particular
`check_include_exclude x "" ""` is `true` for every candidate. -/
theorem C9_empty_pattern_absent :
    (∀ x : String,
       check_include_exclude x (some "") (some "") = Except.ok true) ∧
    (∀ (x : String) (ep : Option String),
       check_include_exclude x (some "") ep =
         check_include_exclude x none ep) ∧
    (∀ (x : String) (ip : Option String),
       check_include_exclude x ip (some "") =
         check_include_exclude x ip none) :=
  ⟨fun _ => rfl, fun _ _ => rfl, fun _ _ => rfl⟩

/-- C10: A bare `E@` marker leaves the empty regular expression,
whose substring search succeeds on every candidate: as an include
pattern it admits everything, as an exclude pattern it denies
everything. -/
theorem C10_bare_marker (x : String) :
    check_include_exclude x (some "E@") none = Except.ok true ∧
    check_include_exclude x none (some "E@") = Except.ok false := by
  constructor
  · have h1 : check_include_exclude x (some "E@") none =
        Except.ok (searchList Regex.eps x.data) := rfl
    rw [h1, searchList_eps]
  · have h2 : check_include_exclude x none (some "E@") =
        Except.ok (!searchList Regex.eps x.data) := rfl
    rw [h2, searchList_eps]
    rfl
